import Mathlib

/-!
Verification of the gastronomy catalog HTTP service.

Shallow embedding of the two source files: the catalog loader
(`database.js`) and the Express request handlers (the query service).
JavaScript numbers are modeled as rationals (`ℚ`) for prices and ratings
and integers (`ℤ`) for identifiers, spiciness levels and review counts;
strings are Lean `String`s.  The `NaN` value produced by JavaScript in
the two places the handlers can produce it (a price bound that fails to
parse, and the 0/0 division over an empty catalog) is modeled explicitly
with `Option`/a length guard, matching the observable behavior of the
handlers (every comparison against `NaN` is false; `NaN.toFixed` is the
string "NaN").
-/

namespace Gastro

/-- Model of JavaScript `String.prototype.toLowerCase`, applied
character-wise (accurate on the ASCII data this service handles). -/
def jsToLower (s : String) : String := ⟨s.data.map Char.toLower⟩

/-- Boolean test that the first character list starts the second. -/
def pfxB : List Char → List Char → Bool
  | [], _ => true
  | _ :: _, [] => false
  | a :: as, b :: bs => a == b && pfxB as bs

/-- Boolean test that `n` occurs contiguously inside the second list;
model of JavaScript `String.prototype.includes` on the characters. -/
def substrB (n : List Char) : List Char → Bool
  | [] => pfxB n []
  | b :: bs => pfxB n (b :: bs) || substrB n bs

/-- `hay.includes(needle)` for strings. -/
def jsIncludes (hay needle : String) : Bool := substrB needle.data hay.data

/-- Whitespace skipped by the JavaScript numeric parsers. -/
def jsWS (c : Char) : Bool := c == ' ' || c == '\t' || c == '\n' || c == '\r'

/-- Decimal digits read as a natural number. -/
def digitsToNat (ds : List Char) : Nat :=
  ds.foldl (fun n c => 10 * n + (c.toNat - 48)) 0

/-- Strip an optional leading sign, returning the sign as an integer. -/
def signSplit : List Char → Int × List Char
  | '-' :: r => (-1, r)
  | '+' :: r => (1, r)
  | cs => (1, cs)

/-- Value of an exponent suffix after the letter e; 0 when no digits
follow, as `parseFloat` then ignores the suffix. -/
def expVal (r : List Char) : Int :=
  let sc := signSplit r
  let ds := sc.2.takeWhile Char.isDigit
  if ds.isEmpty then 0 else sc.1 * (digitsToNat ds : Int)

/-- Model of JavaScript `parseFloat` on decimal literals: leading
whitespace, optional sign, digits with optional fraction and exponent,
trailing garbage ignored; `none` models `NaN` (no digits consumed).
The non-finite spellings (`Infinity`) and hex forms are outside the data
this service handles and are not modeled. -/
def jsParseFloat (s : String) : Option ℚ :=
  let sc := signSplit (s.data.dropWhile jsWS)
  let intDs := sc.2.takeWhile Char.isDigit
  let rest := sc.2.dropWhile Char.isDigit
  let fr : List Char × List Char :=
    match rest with
    | '.' :: r => (r.takeWhile Char.isDigit, r.dropWhile Char.isDigit)
    | _ => ([], rest)
  if intDs.isEmpty && fr.1.isEmpty then none
  else
    let mant : ℚ := (digitsToNat intDs : ℚ) + (digitsToNat fr.1 : ℚ) / (10 : ℚ) ^ fr.1.length
    let e : Int :=
      match fr.2 with
      | 'e' :: r => expVal r
      | 'E' :: r => expVal r
      | _ => 0
    some ((sc.1 : ℚ) * mant * (10 : ℚ) ^ e)

/-- Model of JavaScript `parseInt` in base 10: leading whitespace,
optional sign, decimal digit run; `none` models `NaN`. -/
def jsParseInt (s : String) : Option Int :=
  let sc := signSplit (s.data.dropWhile jsWS)
  let ds := sc.2.takeWhile Char.isDigit
  if ds.isEmpty then none else some (sc.1 * (digitsToNat ds : Int))

/-- Model of `Number.prototype.toFixed d` on a finite rational: round to
`d` decimal places and print with exactly `d` fractional digits. -/
def ratToFixed (q : ℚ) (d : Nat) : String :=
  let n : Nat := (Int.floor (|q| * (10 : ℚ) ^ d + 1 / 2)).toNat
  let ip := n / 10 ^ d
  let fp := n % 10 ^ d
  let fs := toString fp
  let pad := String.mk (List.replicate (d - fs.length) '0')
  (if q < 0 then "-" else "") ++ toString ip ++
    (if d = 0 then "" else "." ++ pad ++ fs)

/-- A catalog product, as stored in `data.json`. -/
structure Product where
  id : Int
  name : String
  description : String
  category : String
  price : ℚ
  available : Bool
  spicyLevel : Int
  rating : ℚ
  reviews : Int
  ingredients : List String
deriving DecidableEq

/-- The query string of `GET /api/products`: each recognized parameter is
absent (`none`) or present with its raw string value. -/
structure Query where
  category : Option String
  minPrice : Option String
  maxPrice : Option String
  available : Option String
  spicyLevel : Option String
  search : Option String
deriving DecidableEq

/-- Successful response body of `GET /api/products`. -/
structure ProductsResponse where
  count : Nat
  data : List Product
deriving DecidableEq

/-- Category filter stage: `if (category)` is JavaScript truthiness, so
an absent or empty parameter leaves the list unchanged. -/
def applyCategory (q : Query) (l : List Product) : List Product :=
  match q.category with
  | some c =>
      if c = "" then l
      else l.filter (fun p => jsToLower p.category == jsToLower c)
  | none => l

/-- Minimum-price stage: `price >= parseFloat(minPrice)`; a `NaN` bound
compares false against every price. -/
def applyMinPrice (q : Query) (l : List Product) : List Product :=
  match q.minPrice with
  | some s =>
      if s = "" then l
      else l.filter (fun p =>
        match jsParseFloat s with
        | some v => decide (v ≤ p.price)
        | none => false)
  | none => l

/-- Maximum-price stage: `price <= parseFloat(maxPrice)`. -/
def applyMaxPrice (q : Query) (l : List Product) : List Product :=
  match q.maxPrice with
  | some s =>
      if s = "" then l
      else l.filter (fun p =>
        match jsParseFloat s with
        | some v => decide (p.price ≤ v)
        | none => false)
  | none => l

/-- Availability stage: guarded by `!== undefined`, so even an empty
string engages it; compares against the literal string "true". -/
def applyAvailable (q : Query) (l : List Product) : List Product :=
  match q.available with
  | some s => l.filter (fun p => p.available == (s == "true"))
  | none => l

/-- Spiciness stage: guarded by `!== undefined`;
`spicyLevel <= parseInt(spicyLevel)`, false against a `NaN` bound. -/
def applySpicy (q : Query) (l : List Product) : List Product :=
  match q.spicyLevel with
  | some s =>
      l.filter (fun p =>
        match jsParseInt s with
        | some n => decide (p.spicyLevel ≤ n)
        | none => false)
  | none => l

/-- Search stage: term lowered once, match in name, description, or any
ingredient; `if (search)` is truthiness. -/
def applySearch (q : Query) (l : List Product) : List Product :=
  match q.search with
  | some s =>
      if s = "" then l
      else
        let term := jsToLower s
        l.filter (fun p =>
          jsIncludes (jsToLower p.name) term ||
          jsIncludes (jsToLower p.description) term ||
          p.ingredients.any (fun ing => jsIncludes (jsToLower ing) term))
  | none => l

/-- `GET /api/products`: the six filter stages applied in source order,
then the count and data of the response. -/
def listProducts (ps : List Product) (q : Query) : ProductsResponse :=
  let r := applySearch q (applySpicy q (applyAvailable q
    (applyMaxPrice q (applyMinPrice q (applyCategory q ps)))))
  ⟨r.length, r⟩

/-- `GET /api/products/:id` lookup: first product with the given id. -/
def getProductById (ps : List Product) (i : Int) : Option Product :=
  ps.find? (fun p => p.id == i)

/-- Response of `GET /api/products/category/:category`: 404 when the
filtered list is empty, else the echoed category, count and data. -/
inductive CategoryResponse where
  | notFound
  | ok (category : String) (count : Nat) (data : List Product)
deriving DecidableEq

/-- `GET /api/products/category/:category`: case-insensitive match of
the path parameter against each product category. -/
def listProductsByCategory (ps : List Product) (cat : String) : CategoryResponse :=
  let cps := ps.filter (fun p => jsToLower p.category == jsToLower cat)
  if cps.length = 0 then .notFound else .ok cat cps.length cps

/-- Data carried by a category response (empty on 404). -/
def CategoryResponse.dataOf : CategoryResponse → List Product
  | .notFound => []
  | .ok _ _ d => d

/-- Count carried by a category response (0 on 404). -/
def CategoryResponse.countOf : CategoryResponse → Nat
  | .notFound => 0
  | .ok _ c _ => c

/-- Whether the response was a success rather than a 404. -/
def CategoryResponse.found : CategoryResponse → Bool
  | .notFound => false
  | .ok _ _ _ => true

/-- One entry of the `GET /api/categories` response. -/
structure CategoryCount where
  name : String
  count : Nat
deriving DecidableEq

/-- `GET /api/categories`: each known category name with the number of
products whose category string equals it exactly (case-sensitive). -/
def listCategories (ps : List Product) (cats : List String) : List CategoryCount :=
  cats.map (fun c => ⟨c, (ps.filter (fun p => p.category == c)).length⟩)

/-- `GET /api/products/featured`: rating at least 4.5, sorted descending
by rating (comparator `b.rating - a.rating`), first 6 kept. -/
def getFeaturedProducts (ps : List Product) : List Product :=
  ((ps.filter (fun p => decide (mkRat 9 2 ≤ p.rating))).mergeSort
    (fun a b => decide (b.rating ≤ a.rating))).take 6

/-- Response body of `GET /api/stats`. -/
structure Stats where
  totalProducts : Nat
  totalCategories : Nat
  averagePrice : String
  averageRating : String
  totalReviews : Int
  availableProducts : Nat
  vegetarianOptions : Nat
  spicyOptions : Nat
deriving DecidableEq

/-- `GET /api/stats`.  Over an empty catalog the source computes
`(0 / 0).toFixed(..)`, namely the string "NaN"; that path is modeled by
the length guard, taken exactly when the division is 0/0. -/
def getStats (ps : List Product) (cats : List String) : Stats :=
  ⟨ps.length,
   cats.length,
   if ps.length = 0 then "NaN"
     else ratToFixed ((ps.map Product.price).sum / (ps.length : ℚ)) 2,
   if ps.length = 0 then "NaN"
     else ratToFixed ((ps.map Product.rating).sum / (ps.length : ℚ)) 1,
   (ps.map Product.reviews).sum,
   (ps.filter (fun p => p.available)).length,
   (ps.filter (fun p => p.category == "Vegetariano")).length,
   (ps.filter (fun p => decide (0 < p.spicyLevel))).length⟩

/-- The three collections of `database.js`; restaurant metadata is an
opaque record, modeled as its key-value pairs. -/
structure Catalog where
  products : List Product
  categories : List String
  restaurantInfo : List (String × String)
deriving DecidableEq

/-- `loadData` of `database.js`: the try/catch around reading and
parsing `data.json`, taking the outcome of that IO as input; any failure
yields the empty catalog instead of propagating. -/
def loadData (readParse : Except String Catalog) : Catalog :=
  match readParse with
  | .ok d => d
  | .error _ => ⟨[], [], []⟩

/-- Whether a product passes the category stage of the query. -/
def passCategory (q : Query) (p : Product) : Bool :=
  match q.category with
  | some c => if c = "" then true else jsToLower p.category == jsToLower c
  | none => true

/-- Whether a product passes the minimum-price stage. -/
def passMinPrice (q : Query) (p : Product) : Bool :=
  match q.minPrice with
  | some s =>
      if s = "" then true
      else
        match jsParseFloat s with
        | some v => decide (v ≤ p.price)
        | none => false
  | none => true

/-- Whether a product passes the maximum-price stage. -/
def passMaxPrice (q : Query) (p : Product) : Bool :=
  match q.maxPrice with
  | some s =>
      if s = "" then true
      else
        match jsParseFloat s with
        | some v => decide (p.price ≤ v)
        | none => false
  | none => true

/-- Whether a product passes the availability stage. -/
def passAvailable (q : Query) (p : Product) : Bool :=
  match q.available with
  | some s => p.available == (s == "true")
  | none => true

/-- Whether a product passes the spiciness stage. -/
def passSpicy (q : Query) (p : Product) : Bool :=
  match q.spicyLevel with
  | some s =>
      match jsParseInt s with
      | some n => decide (p.spicyLevel ≤ n)
      | none => false
  | none => true

/-- Whether a product passes the search stage. -/
def passSearch (q : Query) (p : Product) : Bool :=
  match q.search with
  | some s =>
      if s = "" then true
      else
        let term := jsToLower s
        jsIncludes (jsToLower p.name) term ||
        jsIncludes (jsToLower p.description) term ||
        p.ingredients.any (fun ing => jsIncludes (jsToLower ing) term)
  | none => true

theorem mem_applyCategory {q : Query} {l : List Product} {p : Product} :
    p ∈ applyCategory q l ↔ p ∈ l ∧ passCategory q p = true := by
  unfold applyCategory passCategory
  cases q.category with
  | none => simp
  | some c =>
      by_cases hc : c = "" <;> simp [hc, List.mem_filter]

theorem mem_applyMinPrice {q : Query} {l : List Product} {p : Product} :
    p ∈ applyMinPrice q l ↔ p ∈ l ∧ passMinPrice q p = true := by
  unfold applyMinPrice passMinPrice
  cases q.minPrice with
  | none => simp
  | some s =>
      by_cases hs : s = "" <;> simp [hs, List.mem_filter]

theorem mem_applyMaxPrice {q : Query} {l : List Product} {p : Product} :
    p ∈ applyMaxPrice q l ↔ p ∈ l ∧ passMaxPrice q p = true := by
  unfold applyMaxPrice passMaxPrice
  cases q.maxPrice with
  | none => simp
  | some s =>
      by_cases hs : s = "" <;> simp [hs, List.mem_filter]

theorem mem_applyAvailable {q : Query} {l : List Product} {p : Product} :
    p ∈ applyAvailable q l ↔ p ∈ l ∧ passAvailable q p = true := by
  unfold applyAvailable passAvailable
  cases q.available with
  | none => simp
  | some s => simp [List.mem_filter]

theorem mem_applySpicy {q : Query} {l : List Product} {p : Product} :
    p ∈ applySpicy q l ↔ p ∈ l ∧ passSpicy q p = true := by
  unfold applySpicy passSpicy
  cases q.spicyLevel with
  | none => simp
  | some s => simp [List.mem_filter]

theorem mem_applySearch {q : Query} {l : List Product} {p : Product} :
    p ∈ applySearch q l ↔ p ∈ l ∧ passSearch q p = true := by
  unfold applySearch passSearch
  cases q.search with
  | none => simp
  | some s =>
      by_cases hs : s = "" <;> simp [hs, List.mem_filter]

theorem mem_listProducts {ps : List Product} {q : Query} {p : Product} :
    p ∈ (listProducts ps q).data ↔
      p ∈ ps ∧ passCategory q p = true ∧ passMinPrice q p = true ∧
        passMaxPrice q p = true ∧ passAvailable q p = true ∧
        passSpicy q p = true ∧ passSearch q p = true := by
  show p ∈ applySearch q (applySpicy q (applyAvailable q
      (applyMaxPrice q (applyMinPrice q (applyCategory q ps))))) ↔ _
  rw [mem_applySearch, mem_applySpicy, mem_applyAvailable,
    mem_applyMaxPrice, mem_applyMinPrice, mem_applyCategory]
  tauto

/-- First product of the spec's concrete two-product scenario, with the
category string as the spec's claim spells it. -/
def specP1 : Product :=
  ⟨1, "Ensalada", "Ensalada fresca", "Vegetarian", 10, true, 0, mkRat 24 5, 5,
    ["lechuga", "tomate"]⟩

/-- Second product of the spec's concrete scenario. -/
def specP2 : Product :=
  ⟨2, "Asado", "Carne asada", "Meat", 20, false, 3, mkRat 21 5, 2, ["res"]⟩

/-- The spec's concrete two-product catalog. -/
def specProducts : List Product := [specP1, specP2]

/-- The same first product with the category string spelled as the
source data spells it. -/
def specP1Es : Product :=
  ⟨1, "Ensalada", "Ensalada fresca", "Vegetariano", 10, true, 0, mkRat 24 5, 5,
    ["lechuga", "tomate"]⟩

/-- The same second product in the source data's locale. -/
def specP2Es : Product :=
  ⟨2, "Asado", "Carne asada", "Carne", 20, false, 3, mkRat 21 5, 2, ["res"]⟩

/-- The concrete catalog in the source data's locale. -/
def specProductsEs : List Product := [specP1Es, specP2Es]

/-- Category names for the concrete catalogs. -/
def specCats : List String := ["Vegetariano", "Carne"]

/-- Query with no filter parameter supplied. -/
def noFilters : Query := ⟨none, none, none, none, none, none⟩

/-- The query restricted to its category parameter. -/
def onlyCategory (q : Query) : Query := ⟨q.category, none, none, none, none, none⟩

/-- The query restricted to its minimum-price parameter. -/
def onlyMinPrice (q : Query) : Query := ⟨none, q.minPrice, none, none, none, none⟩

/-- The query restricted to its maximum-price parameter. -/
def onlyMaxPrice (q : Query) : Query := ⟨none, none, q.maxPrice, none, none, none⟩

/-- The query restricted to its availability parameter. -/
def onlyAvailable (q : Query) : Query := ⟨none, none, none, q.available, none, none⟩

/-- The query restricted to its spiciness parameter. -/
def onlySpicy (q : Query) : Query := ⟨none, none, none, none, q.spicyLevel, none⟩

/-- The query restricted to its search parameter. -/
def onlySearch (q : Query) : Query := ⟨none, none, none, none, none, q.search⟩

theorem pfxB_iff (n h : List Char) : pfxB n h = true ↔ ∃ r, h = n ++ r := by
  induction n generalizing h with
  | nil => simp [pfxB]
  | cons a as ih =>
      cases h with
      | nil => simp [pfxB]
      | cons b bs =>
          constructor
          · intro hpb
            simp only [pfxB, Bool.and_eq_true, beq_iff_eq] at hpb
            obtain ⟨r, hr⟩ := (ih bs).mp hpb.2
            exact ⟨r, by simp [hpb.1, hr]⟩
          · rintro ⟨r, hr⟩
            simp only [List.cons_append, List.cons.injEq] at hr
            simp only [pfxB, Bool.and_eq_true, beq_iff_eq]
            exact ⟨hr.1.symm, (ih bs).mpr ⟨r, hr.2⟩⟩

theorem substrB_iff (n h : List Char) :
    substrB n h = true ↔ ∃ l r, h = l ++ n ++ r := by
  induction h with
  | nil =>
      simp only [substrB]
      rw [pfxB_iff]
      constructor
      · rintro ⟨r, hr⟩
        exact ⟨[], r, by simpa using hr⟩
      · rintro ⟨l, r, hr⟩
        rcases List.append_eq_nil.mp hr.symm with ⟨h1, h2⟩
        rcases List.append_eq_nil.mp h1 with ⟨h3, h4⟩
        exact ⟨[], by simp [h4]⟩
  | cons b bs ih =>
      simp only [substrB]
      rw [Bool.or_eq_true, pfxB_iff, ih]
      constructor
      · rintro (⟨r, hr⟩ | ⟨l, r, hr⟩)
        · exact ⟨[], r, by simpa using hr⟩
        · exact ⟨b :: l, r, by simp [hr]⟩
      · rintro ⟨l, r, hr⟩
        cases l with
        | nil => exact Or.inl ⟨r, by simpa using hr⟩
        | cons x xs =>
            simp only [List.cons_append, List.cons.injEq] at hr
            exact Or.inr ⟨xs, r, hr.2⟩

/-- The genuine substring relation on strings. -/
def IsSubstr (n h : String) : Prop := ∃ l r : List Char, h.data = l ++ n.data ++ r

/-- The spec's search criterion: the term occurs, case-insensitively, in
the product's name, its description, or one of its ingredients. -/
def searchMatches (s : String) (p : Product) : Prop :=
  IsSubstr (jsToLower s) (jsToLower p.name) ∨
  IsSubstr (jsToLower s) (jsToLower p.description) ∨
  ∃ ing ∈ p.ingredients, IsSubstr (jsToLower s) (jsToLower ing)

/-- C9: `loadData` never raises to its caller: a read or parse failure of
`data.json` yields the empty catalog, and a successful read yields the
parsed document's collections unchanged. -/
theorem c9_loadData_fail_open (e : String) (d : Catalog) :
    loadData (Except.error e) = ⟨[], [], []⟩ ∧ loadData (Except.ok d) = d :=
  ⟨rfl, rfl⟩

/-- C10: on an empty product collection, `getStats` returns zero totals
and the string "NaN" (the formatted 0/0 division) for both averages. -/
theorem c10_stats_empty_catalog (cats : List String) :
    (getStats [] cats).totalProducts = 0 ∧
    (getStats [] cats).totalReviews = 0 ∧
    (getStats [] cats).availableProducts = 0 ∧
    (getStats [] cats).vegetarianOptions = 0 ∧
    (getStats [] cats).spicyOptions = 0 ∧
    (getStats [] cats).averagePrice = "NaN" ∧
    (getStats [] cats).averageRating = "NaN" :=
  ⟨rfl, rfl, rfl, rfl, rfl, rfl, rfl⟩

/-- C1 counterexample: on the spec's concrete catalog whose first
product has category "Vegetarian", `vegetarianOptions` is 0, not 1 — the
handler compares against the literal "Vegetariano". -/
theorem c1_vegetarian_literal_counterexample :
    (getStats specProducts specCats).vegetarianOptions = 0 ∧
    ¬ (getStats specProducts specCats).vegetarianOptions = 1 := by
  decide

/-- C1 (amended): `vegetarianOptions` counts exactly the products whose
category string equals the literal "Vegetariano"; on the concrete
two-product catalog whose first product has category "Vegetariano" it
equals 1. -/
theorem c1_vegetarian_literal_amended :
    (∀ ps cats, (getStats ps cats).vegetarianOptions =
      ps.countP (fun p => p.category == "Vegetariano")) ∧
    (getStats specProductsEs specCats).vegetarianOptions = 1 := by
  constructor
  · intro ps cats
    simp [getStats, List.countP_eq_length_filter]
  · decide

/-- C2 counterexample: on a catalog with one product of category
"Vegetarian", the responses to the two casings differ, because the
success body echoes the route argument verbatim. -/
theorem c2_case_insensitive_route_counterexample :
    listProductsByCategory specProducts "VEGETARIAN" ≠
      listProductsByCategory specProducts "vegetarian" := by
  decide

/-- C2 (amended): for every catalog the two casings return the same
product sequence, the same count and the same found/not-found status;
only the echoed category field differs, carrying the argument verbatim. -/
theorem c2_case_insensitive_route_amended (ps : List Product) :
    (listProductsByCategory ps "VEGETARIAN").dataOf =
      (listProductsByCategory ps "vegetarian").dataOf ∧
    (listProductsByCategory ps "VEGETARIAN").countOf =
      (listProductsByCategory ps "vegetarian").countOf ∧
    (listProductsByCategory ps "VEGETARIAN").found =
      (listProductsByCategory ps "vegetarian").found := by
  have h : jsToLower "VEGETARIAN" = jsToLower "vegetarian" := by decide
  unfold listProductsByCategory
  rw [h]
  by_cases h0 :
      (ps.filter (fun p => jsToLower p.category == jsToLower "vegetarian")).length = 0 <;>
    simp [h0, CategoryResponse.dataOf, CategoryResponse.countOf, CategoryResponse.found]

/-- C6 counterexample: a supplied empty-string minPrice does not parse
to a number, yet the full catalog is returned, because the truthiness
guard skips the filter. -/
theorem c6_invalid_bound_counterexample :
    jsParseFloat "" = none ∧
    (listProducts specProductsEs ⟨none, some "", none, none, none, none⟩).data =
      specProductsEs ∧
    (listProducts specProductsEs ⟨none, some "", none, none, none, none⟩).count = 2 := by
  decide

/-- C6 (amended): for a supplied non-empty minPrice or maxPrice whose
value does not parse to a number, `listProducts` silently returns the
empty product sequence with count 0. -/
theorem c6_invalid_bound_amended (ps : List Product) (q : Query) (s : String)
    (hs : s ≠ "") (hb : q.minPrice = some s ∨ q.maxPrice = some s)
    (hn : jsParseFloat s = none) :
    (listProducts ps q).data = [] ∧ (listProducts ps q).count = 0 := by
  have hdata : (listProducts ps q).data = [] := by
    rw [List.eq_nil_iff_forall_not_mem]
    intro p hmem
    rw [mem_listProducts] at hmem
    rcases hb with hb | hb
    · have hpass := hmem.2.2.1
      unfold passMinPrice at hpass
      rw [hb] at hpass
      simp [hs, hn] at hpass
    · have hpass := hmem.2.2.2.1
      unfold passMaxPrice at hpass
      rw [hb] at hpass
      simp [hs, hn] at hpass
  refine ⟨hdata, ?_⟩
  have hc : (listProducts ps q).count = (listProducts ps q).data.length := rfl
  rw [hc, hdata]
  rfl

/-- Witness for the amended C6 at the bound "abc" on the concrete
catalog. -/
theorem c6_invalid_bound_amended_witness :
    ("abc" ≠ "") ∧ jsParseFloat "abc" = none ∧
    (listProducts specProductsEs ⟨none, some "abc", none, none, none, none⟩).data = [] ∧
    (listProducts specProductsEs ⟨none, some "abc", none, none, none, none⟩).count = 0 :=
  ⟨by decide, by decide,
    c6_invalid_bound_amended specProductsEs
      ⟨none, some "abc", none, none, none, none⟩ "abc" (by decide) (Or.inl rfl)
      (by decide)⟩

/-- C7: `listCategories` returns one entry per known category name, in
order, pairing the name with the number of products whose category
string is exactly equal to it. -/
theorem c7_listCategories_counts (ps : List Product) (cats : List String) (i : Nat) :
    (listCategories ps cats).length = cats.length ∧
    (listCategories ps cats)[i]? =
      cats[i]?.map (fun c => ⟨c, ps.countP (fun p => p.category == c)⟩) := by
  constructor
  · simp [listCategories]
  · simp [listCategories, List.getElem?_map, List.countP_eq_length_filter]

/-- C8: on a catalog with unique identifiers, looking a product's own id
up returns exactly that product. -/
theorem c8_getProductById_roundtrip (ps : List Product) (p : Product)
    (hu : (ps.map Product.id).Nodup) (hp : p ∈ ps) :
    getProductById ps p.id = some p := by
  induction ps with
  | nil => cases hp
  | cons a as ih =>
      simp only [List.map_cons, List.nodup_cons] at hu
      rcases List.mem_cons.mp hp with rfl | hmem
      · unfold getProductById
        rw [List.find?_cons_of_pos]
        simp
      · unfold getProductById
        rw [List.find?_cons_of_neg]
        · exact ih hu.2 hmem
        · simp only [beq_iff_eq]
          intro he
          exact hu.1 (he ▸ List.mem_map_of_mem Product.id hmem)

/-- Witness for C8 on the concrete catalog. -/
theorem c8_getProductById_roundtrip_witness :
    (specProductsEs.map Product.id).Nodup ∧ specP1Es ∈ specProductsEs ∧
    getProductById specProductsEs specP1Es.id = some specP1Es :=
  ⟨by decide, by decide,
    c8_getProductById_roundtrip specProductsEs specP1Es (by decide) (by decide)⟩

/-- C3: `getFeaturedProducts` returns at most 6 items, sorted
non-increasing by rating, and every returned item has rating ≥ 4.5. -/
theorem c3_featured_products (ps : List Product) :
    (getFeaturedProducts ps).length ≤ 6 ∧
    List.Pairwise (fun a b => b.rating ≤ a.rating) (getFeaturedProducts ps) ∧
    ∀ p ∈ getFeaturedProducts ps, (4.5 : ℚ) ≤ p.rating := by
  have h45 : (4.5 : ℚ) = mkRat 9 2 := by norm_num [Rat.mkRat_eq_div]
  unfold getFeaturedProducts
  refine ⟨?_, ?_, ?_⟩
  · rw [List.length_take]
    exact min_le_left _ _
  · have hsort :
        List.Pairwise (fun a b : Product => decide (b.rating ≤ a.rating) = true)
          (List.mergeSort (ps.filter (fun p => decide (mkRat 9 2 ≤ p.rating)))
            (fun a b => decide (b.rating ≤ a.rating))) := by
      apply List.sorted_mergeSort
      · intro a b c hab hbc
        simp only [decide_eq_true_eq] at hab hbc ⊢
        exact le_trans hbc hab
      · intro a b
        simp only [Bool.or_eq_true, decide_eq_true_eq]
        exact le_total b.rating a.rating
    exact (List.Pairwise.sublist (List.take_sublist 6 _) hsort).imp
      (fun h => by simpa using h)
  · intro p hp
    have h1 : p ∈ List.mergeSort (ps.filter (fun p => decide (mkRat 9 2 ≤ p.rating)))
        (fun a b => decide (b.rating ≤ a.rating)) :=
      (List.take_sublist 6 _).mem hp
    rw [List.mem_mergeSort] at h1
    have h2 := (List.mem_filter.mp h1).2
    rw [h45]
    simpa using h2

/-- C4: a product of the catalog is returned by a search-only query
exactly when the term occurs, case-insensitively, as a substring of its
name, of its description, or of one of its ingredients. -/
theorem c4_search_criterion (ps : List Product) (s : String) (p : Product)
    (hp : p ∈ ps) :
    p ∈ (listProducts ps ⟨none, none, none, none, none, some s⟩).data ↔
      searchMatches s p := by
  rw [mem_listProducts]
  by_cases hs : s = ""
  · subst hs
    simp only [passCategory, passMinPrice, passMaxPrice, passAvailable, passSpicy,
      passSearch, hp]
    simp only [true_and, if_pos rfl]
    constructor
    · intro _
      exact Or.inl ⟨[], (jsToLower p.name).data, rfl⟩
    · intro _
      trivial
  · simp only [passCategory, passMinPrice, passMaxPrice, passAvailable, passSpicy,
      passSearch, hp, true_and, if_neg hs]
    unfold searchMatches IsSubstr jsIncludes
    rw [Bool.or_eq_true, Bool.or_eq_true, substrB_iff, substrB_iff,
      List.any_eq_true]
    constructor
    · rintro ((h | h) | ⟨ing, hing, hsub⟩)
      · exact Or.inl h
      · exact Or.inr (Or.inl h)
      · exact Or.inr (Or.inr ⟨ing, hing, (substrB_iff _ _).mp hsub⟩)
    · rintro (h | h | ⟨ing, hing, hsub⟩)
      · exact Or.inl (Or.inl h)
      · exact Or.inl (Or.inr h)
      · exact Or.inr ⟨ing, hing, (substrB_iff _ _).mpr hsub⟩

/-- Witness for C4: the term "ENSALADA" matches the first product of the
concrete catalog through its name, case-insensitively. -/
theorem c4_search_criterion_witness :
    specP1Es ∈ specProductsEs ∧
    (specP1Es ∈
        (listProducts specProductsEs ⟨none, none, none, none, none,
          some "ENSALADA"⟩).data ↔
      searchMatches "ENSALADA" specP1Es) :=
  ⟨by decide, c4_search_criterion specProductsEs "ENSALADA" specP1Es (by decide)⟩

/-- C5: the products returned under any filter combination are exactly
those returned by each individual filter alone (the intersection of the
single-filter matching sets); with no filters supplied, the full
collection is returned with its length as count. -/
theorem c5_filter_composability (ps : List Product) (q : Query) (p : Product) :
    (p ∈ (listProducts ps q).data ↔
      p ∈ (listProducts ps (onlyCategory q)).data ∧
      p ∈ (listProducts ps (onlyMinPrice q)).data ∧
      p ∈ (listProducts ps (onlyMaxPrice q)).data ∧
      p ∈ (listProducts ps (onlyAvailable q)).data ∧
      p ∈ (listProducts ps (onlySpicy q)).data ∧
      p ∈ (listProducts ps (onlySearch q)).data) ∧
    (listProducts ps noFilters).data = ps ∧
    (listProducts ps noFilters).count = ps.length := by
  refine ⟨?_, rfl, rfl⟩
  simp only [mem_listProducts, onlyCategory, onlyMinPrice, onlyMaxPrice,
    onlyAvailable, onlySpicy, onlySearch, passCategory, passMinPrice,
    passMaxPrice, passAvailable, passSpicy, passSearch]
  tauto

end Gastro
